import Mathlib

/-!
# pythonPal4foam: the embedded-Python bridge `pythonPal`

A shallow embedding of `src/pythonPal/pythonPal.H` and of the boundary-patch
loop of the two `pythonPalIcoFoam` drivers.

* The process is a `World`: whether an interpreter is live
  (`Py_IsInitialized()`), the attribute dictionary of the Python module
  `__main__`, the process memory seen as double-precision cells, and a trace
  of the steps taken so far.
* What Python, NumPy, ctypes and the host environment do is not part of the
  repository.  It enters through `Env`: the meaning of an arbitrary statement
  (`Env.run`), of a script file (`Env.runFile`), the content of a freshly
  started `__main__` (`Env.freshMain`) and `Foam::fileName::expand`
  (`Env.expand`).  Only the two statements that `passToPython` itself builds
  are given a fixed meaning (`execCast`, `execAsArray`), and only in a scope
  where `np`, `C` and `exec` have their usual meaning.
* An exception thrown by pybind11 leaves the member function at once; a
  `Result` carries the world reached and the error, if any.
-/

namespace PythonPal

/-! ## Python values, scopes, memory -/

/-- An IEEE-754 double-precision value, given by its bit pattern. -/
abbrev F64 := Nat

/-- Python values that the bridge handles. -/
inductive PyVal where
  /-- Python `int` -/
  | int (i : Int)
  /-- Python `str` -/
  | str (s : String)
  /-- Python `float` (a C double) -/
  | float (x : F64)
  /-- an imported module, by name -/
  | module (name : String)
  /-- a ctypes `POINTER(c_double)` instance holding an address -/
  | pointer (addr : Nat)
  /-- a NumPy `float64` array of shape `(rows, cols)` over the memory at `base`;
      it holds the address, not the data -/
  | ndarray (base rows cols : Nat)
  /-- any other Python object -/
  | object (id : Nat)
  deriving DecidableEq, Repr

/-- A Python namespace: name to value. -/
abbrev Scope := String → Option PyVal

/-- Item assignment `scope[k] = v`. -/
def Scope.set (s : Scope) (k : String) (v : PyVal) : Scope :=
  fun x => if x = k then some v else s x

/-- Process memory: the double stored in the eight bytes starting at an address. -/
abbrev Mem := Nat → F64

/-- What Python code can read and write: the `__main__` namespace and memory. -/
structure PyState where
  scope : Scope
  mem : Mem

/-- Text of a Python error (`py::error_already_set`). -/
abbrev PyErr := String

/-- The parts of the behaviour fixed outside the repository. -/
structure Env where
  /-- meaning of a statement run by `py::exec` -/
  run : String → PyState → PyState × Option PyErr
  /-- meaning of `py::eval_file` on a path -/
  runFile : String → PyState → PyState × Option PyErr
  /-- the `__main__` namespace of a freshly initialised interpreter -/
  freshMain : Scope
  /-- the function `Foam::fileName::expand` -/
  expand : String → String

/-! ## Host lists -/

/-- A `Foam::List<T>`: address of the first element (`cdata()`), number of
    elements (`size()`) and `pTraits<T>::nComponents`; the components are
    doubles stored contiguously. -/
structure HostList where
  cdata : Nat
  size : Nat
  nComponents : Nat
  deriving DecidableEq, Repr

/-- A `List` owns storage exactly when it has elements, and its address is a
    64-bit pointer. -/
def HostList.valid (L : HostList) : Prop :=
  L.cdata < 2 ^ 64 ∧ (L.cdata = 0 ↔ L.size = 0)

instance (L : HostList) : Decidable L.valid := by
  unfold HostList.valid; exact inferInstance

/-- Component `j` of host element `i`: `myList[i].component(j)`, an element
    being `nComponents` consecutive doubles. -/
def HostList.read (L : HostList) (m : Mem) (i j : Nat) : F64 :=
  m (L.cdata + i * (8 * L.nComponents) + 8 * j)

/-! ## Trace -/

/-- A call of a member function on a bridge. -/
inductive Call where
  | passToPython (myList : HostList) (fieldNameInPython : String)
  | execute (command : String)
  deriving DecidableEq, Repr

/-- Steps recorded in the trace. -/
inductive Event where
  /-- the call `py::initialize_interpreter()` -/
  | initialize_interpreter
  /-- the assignment `scope_ = py::module_::import("__main__").attr("__dict__")` -/
  | bind_scope
  /-- the call `py::exec(code, scope_)` -/
  | exec (code : String)
  /-- the call `pythonScript_.expand()` on the given path -/
  | expand (path : String)
  /-- the call `py::eval_file(path, scope_)` -/
  | eval_file (path : String)
  /-- a line written through `InfoIn(fn)` -/
  | info (fn msg : String)
  /-- entry into a member function -/
  | call (c : Call)
  deriving DecidableEq, Repr

/-- Is the event a diagnostic line? -/
def Event.isInfo : Event → Bool
  | .info _ _ => true
  | _ => false

/-- The steps of a trace without the diagnostic lines. -/
def steps (tr : List Event) : List Event :=
  tr.filter (fun e => !e.isInfo)

/-- The member-function calls of a trace, in order. -/
def callsOf (tr : List Event) : List Call :=
  tr.filterMap (fun e => match e with
    | .call c => some c
    | _ => none)

/-- Number of interpreter start-ups in a trace. -/
def initCount (tr : List Event) : Nat :=
  tr.count Event.initialize_interpreter

/-! ## World and results -/

/-- State of the process. -/
structure World where
  /-- the value of `Py_IsInitialized()` -/
  initialized : Bool
  /-- the `__main__` namespace and memory -/
  py : PyState
  /-- steps so far, oldest first -/
  trace : List Event

/-- Outcome of an operation: the world reached, and the error if it threw. -/
structure Result where
  world : World
  err : Option PyErr

/-- Sequencing: a thrown error skips what follows. -/
def Result.andThen (r : Result) (f : World → Result) : Result :=
  match r.err with
  | none => f r.world
  | some e => ⟨r.world, some e⟩

/-- Record a step. -/
def World.emit (w : World) (e : Event) : World :=
  { w with trace := w.trace ++ [e] }

/-- The guarded `InfoIn(fn) << msg << endl`. -/
def World.infoIf (w : World) (debug : Bool) (fn msg : String) : World :=
  if debug then w.emit (.info fn msg) else w

/-- The item assignment `scope_[k] = v`. -/
def World.setItem (w : World) (k : String) (v : PyVal) : World :=
  { w with py := { w.py with scope := w.py.scope.set k v } }

/-! ## The statements built by `passToPython` -/

/-- First statement run by `passToPython`. -/
def castStmt : String :=
  "data_pointer_myList = C.cast(myList_address, C.POINTER(C.c_double))"

/-- Second statement run by `passToPython`. -/
def asArrayStmt : String :=
  "exec(name + ' = np.ctypeslib.as_array(data_pointer_myList, shape = (SIZE, dim))')"

/-- The value of `reinterpret_cast<long>(p)` for a 64-bit pointer. -/
def toLong (addr : Nat) : Int :=
  if addr % 2 ^ 64 < 2 ^ 63 then (addr % 2 ^ 64 : Nat) else (addr % 2 ^ 64 : Nat) - 2 ^ 64

/-- The address ctypes makes of a Python `int`. -/
def ofLong (i : Int) : Nat :=
  (i % 2 ^ 64).toNat

/-- Can the character start an (ASCII) Python identifier? -/
def isIdentStart (c : Char) : Bool :=
  c.isAlpha || c == '_'

/-- Can the character continue an (ASCII) Python identifier? -/
def isIdentChar (c : Char) : Bool :=
  c.isAlphanum || c == '_'

/-- Words that cannot be (or, for `print` and `exec`, are not in every Python
    version) the target of an assignment. -/
def reservedWords : List String :=
  ["False", "None", "True", "and", "as", "assert", "async", "await", "break",
   "class", "continue", "def", "del", "elif", "else", "except", "finally",
   "for", "from", "global", "if", "import", "in", "is", "lambda", "nonlocal",
   "not", "or", "pass", "raise", "return", "try", "while", "with", "yield",
   "__debug__", "print", "exec"]

/-- An ASCII identifier that an assignment may bind. -/
def isPlainName (n : String) : Bool :=
  match n.toList with
  | [] => false
  | c :: cs => isIdentStart c && cs.all isIdentChar && !(reservedWords.contains n)

/-- A text that Python reads as one comment line: `#` followed by printable
    ASCII characters. -/
def isCommentText (n : String) : Bool :=
  match n.toList with
  | [] => false
  | c :: cs => c == '#' && cs.all (fun d => decide (32 ≤ d.toNat ∧ d.toNat < 127))

/-- The names `np`, `C` and `exec` mean NumPy, ctypes and the builtin. -/
def StdScope (s : Scope) : Prop :=
  s "np" = some (.module "numpy") ∧ s "C" = some (.module "ctypes") ∧ s "exec" = none

instance (s : Scope) : Decidable (StdScope s) := by
  unfold StdScope; exact inferInstance

/-- The statement `castStmt`, where `C` is ctypes and `myList_address` an
    `int`: binds `data_pointer_myList` to a pointer at that address. -/
def execCast (E : Env) (st : PyState) : PyState × Option PyErr :=
  if st.scope "C" = some (.module "ctypes") then
    match st.scope "myList_address" with
    | some (.int a) =>
        ({ st with scope := st.scope.set "data_pointer_myList" (.pointer (ofLong a)) }, none)
    | _ => E.run castStmt st
  else E.run castStmt st

/-- The statement `asArrayStmt`, where `np` is NumPy and `exec` the builtin:
    the text `name + ' = np.ctypeslib.as_array(...)'` is run as a statement.
    With a comment for `name` it does nothing; with a plain name it binds the
    name to an array over the pointer, or raises on a null pointer. -/
def execAsArray (E : Env) (st : PyState) : PyState × Option PyErr :=
  if st.scope "np" = some (.module "numpy") ∧ st.scope "exec" = none then
    match st.scope "name", st.scope "data_pointer_myList", st.scope "SIZE", st.scope "dim" with
    | some (.str n), some (.pointer a), some (.int s), some (.int d) =>
        if isCommentText n then (st, none)
        else if isPlainName n ∧ 0 ≤ s ∧ 0 ≤ d then
          if a = 0 then (st, some "ValueError: NULL pointer access")
          else ({ st with scope := st.scope.set n (.ndarray a s.toNat d.toNat) }, none)
        else E.run asArrayStmt st
    | _, _, _, _ => E.run asArrayStmt st
  else E.run asArrayStmt st

/-- Running a statement in the scope: `py::exec(code, scope_)`. -/
def pyExec (E : Env) (code : String) (st : PyState) : PyState × Option PyErr :=
  if code = castStmt then execCast E st
  else if code = asArrayStmt then execAsArray E st
  else E.run code st

/-- The call `py::exec(code, scope_)`. -/
def World.exec (E : Env) (code : String) (w : World) : Result :=
  { world := { (w.emit (.exec code)) with py := (pyExec E code w.py).1 },
    err := (pyExec E code w.py).2 }

/-- The call `py::eval_file(path, scope_)`. -/
def World.evalFile (E : Env) (path : String) (w : World) : Result :=
  { world := { (w.emit (.eval_file path)) with py := (E.runFile path w.py).1 },
    err := (E.runFile path w.py).2 }

/-- The call `py::initialize_interpreter()`. -/
def World.startUp (E : Env) (w : World) : World :=
  { (w.emit .initialize_interpreter) with
      initialized := true
      py := { w.py with scope := E.freshMain } }

/-! ## class pythonPal -/

/-- A `py::object` handle on a dictionary of the interpreter.  The only one
    the class ever takes is on the attribute dictionary of `__main__`. -/
inductive ScopeRef where
  | mainDict
  deriving DecidableEq, Repr

/-- Private data of `class pythonPal`. -/
structure pythonPal where
  pythonScript_ : String
  scope_ : ScopeRef
  debug_ : Bool
  deriving DecidableEq, Repr

/-- The namespace a bridge's `scope_` refers to. -/
def pythonPal.scope (self : pythonPal) (w : World) : Scope :=
  match self.scope_ with
  | .mainDict => w.py.scope

/-- Outcome of a constructor call: the world and error, and the object when
    the constructor returned. -/
structure Constructed where
  result : Result
  self : Option pythonPal

/-- The steps of the constructor once the interpreter is live. -/
def pythonPal.load (E : Env) (pythonScript : String) (debug : Bool) (w : World) : Result :=
  let w := w.infoIf debug "pythonPal(...)" "Creating Python scope"
  let w := w.emit .bind_scope
  (w.exec E "import numpy as np").andThen fun w =>
  (w.exec E "import ctypes as C").andThen fun w =>
    let w := w.emit (.expand pythonScript)
    let w := w.infoIf debug "pythonPal(...)"
      ("Loading the Python script: " ++ E.expand pythonScript)
    w.evalFile E (E.expand pythonScript)

/-- The start-up guard of the constructor. -/
def pythonPal.ensureStarted (E : Env) (debug : Bool) (w : World) : World :=
  if !w.initialized then
    (w.infoIf debug "pythonPal(...)" "Initialising Python interpretor").startUp E
  else w

/-- The constructor `pythonPal(pythonScript, debug)`. -/
def pythonPal.construct (E : Env) (pythonScript : String) (debug : Bool) (w : World) :
    Constructed :=
  let r := pythonPal.load E pythonScript debug (pythonPal.ensureStarted E debug w)
  { result := r
    self := match r.err with
      | none => some ⟨E.expand pythonScript, .mainDict, debug⟩
      | some _ => none }

/-- The destructor `~pythonPal()`, with an empty body. -/
def pythonPal.destruct (_self : pythonPal) (w : World) : Result :=
  ⟨w, none⟩

/-- The member function `passToPython(myList, fieldNameInPython)`. -/
def pythonPal.passToPython (E : Env) (self : pythonPal) (myList : HostList)
    (fieldNameInPython : String) (w : World) : Result :=
  let w := w.emit (.call (.passToPython myList fieldNameInPython))
  let w := w.infoIf self.debug_ "passToPython(...)"
    ("Passing field to Python: " ++ fieldNameInPython)
  let w := w.setItem "SIZE" (.int myList.size)
  let w := w.setItem "name" (.str fieldNameInPython)
  let dim : Int := myList.nComponents
  let w := w.setItem "dim" (.int dim)
  let myListAddress : Int := toLong myList.cdata
  let w := w.setItem "myList_address" (.int myListAddress)
  (w.exec E castStmt).andThen fun w => w.exec E asArrayStmt

/-- The member function `execute(command)`. -/
def pythonPal.execute (E : Env) (self : pythonPal) (command : String) (w : World) : Result :=
  let w := w.emit (.call (.execute command))
  let w := w.infoIf self.debug_ "execute(const word& command)"
    ("Executing Python command: " ++ command)
  w.exec E command

/-! ## Scalars (`passScalarToPython`, `retrieveScalarFromPython`) -/

/-- Outcome of a retrieval: the world, and the value or the error thrown. -/
structure Retrieved where
  world : World
  value : Except PyErr F64

/-- Modelled from the spec: `passScalarToPython` is called by the drivers but
    is not defined in the `pythonPal.H` at hand.  Spec, Value Marshaler (2): the
    value is "copied into the Scope as an independent foreign scalar"; a
    `float` argument is the double of the same value.  Diagnostics as for the
    other marshaling operations. -/
def pythonPal.passScalarToPython (self : pythonPal) (value : F64) (nameInPython : String)
    (w : World) : Result :=
  let w := w.infoIf self.debug_ "passScalarToPython(...)"
    ("Passing scalar to Python: " ++ nameInPython)
  ⟨w.setItem nameInPython (.float value), none⟩

/-- Modelled from the spec: `retrieveScalarFromPython` is called by the
    drivers but is not defined in the `pythonPal.H` at hand.  Spec, Value
    Marshaler (4): "returns its current value copied into a host-typed scalar";
    it "fails (reports an error, does not silently default) if the name is
    absent", and a value of the wrong kind fails in another way. -/
def pythonPal.retrieveScalarFromPython (self : pythonPal) (nameInPython : String)
    (w : World) : Retrieved :=
  let w := w.infoIf self.debug_ "retrieveScalarFromPython(...)"
    ("Retrieving scalar from Python: " ++ nameInPython)
  { world := w
    value := match self.scope w nameInPython with
      | some (.float x) => .ok x
      | some _ => .error "wrong kind: not a scalar"
      | none => .error "lookup failure: name not in scope" }

/-- The double 1.0. -/
def F64.one : F64 := 0x3FF0000000000000

/-- The double 2.0. -/
def F64.two : F64 := 0x4000000000000000

/-- The double 4.0. -/
def F64.four : F64 := 0x4010000000000000

/-! ## Reading through an array -/

/-- NumPy: the value of `N[i, j]` for a two-dimensional `float64` array in
    row-major order, `none` when `N` is no such array or the index is out of
    bounds. -/
def readIndex (st : PyState) (N : String) (i j : Nat) : Option F64 :=
  match st.scope N with
  | some (.ndarray base rows cols) =>
      if i < rows ∧ j < cols then some (st.mem (base + 8 * (i * cols + j))) else none
  | _ => none

/-- The host assignment `myList[i].component(j) = x`. -/
def HostList.write (L : HostList) (m : Mem) (i j : Nat) (x : F64) : Mem :=
  fun a => if a = L.cdata + i * (8 * L.nComponents) + 8 * j then x else m a

/-- NumPy: the memory after `N[:, :] = x` on an array of shape `(rows, cols)`
    at `base`. -/
def fillCells (m : Mem) (base rows cols : Nat) (x : F64) : Mem :=
  fun a => if base ≤ a ∧ a < base + 8 * (rows * cols) ∧ (a - base) % 8 = 0 then x else m a

/-! ## Host programs -/

/-- Running one member-function call on a bridge. -/
def Call.run (E : Env) (self : pythonPal) : Call → World → Result
  | .passToPython myList fieldNameInPython, w => self.passToPython E myList fieldNameInPython w
  | .execute command, w => self.execute E command w

/-- A bridge operation of a host program. -/
inductive Op where
  | construct (pythonScript : String) (debug : Bool)
  | destruct (self : pythonPal)
  | call (self : pythonPal) (c : Call)

/-- Running one bridge operation. -/
def Op.run (E : Env) : Op → World → Result
  | .construct pythonScript debug, w => (pythonPal.construct E pythonScript debug w).result
  | .destruct self, w => self.destruct w
  | .call self c, w => c.run E self w

/-- Is the operation a construction? -/
def Op.isConstruct : Op → Bool
  | .construct _ _ => true
  | _ => false

/-- A host that performs the operations one after the other, whatever their
    outcome. -/
def runOps (E : Env) : List Op → World → World
  | [], w => w
  | op :: ops, w => runOps E ops (op.run E w).world

/-- A host that makes the calls on one bridge in order and records the outcome
    of each.  After a failed call it goes on when `catching`, and stops
    otherwise (the exception leaves the program). -/
def runCalls (E : Env) (self : pythonPal) (catching : Bool) :
    List Call → World → World × List (Option PyErr)
  | [], w => (w, [])
  | c :: cs, w =>
    match (c.run E self w).err with
    | none =>
        ((runCalls E self catching cs (c.run E self w).world).1,
          none :: (runCalls E self catching cs (c.run E self w).world).2)
    | some e =>
        if catching then
          ((runCalls E self catching cs (c.run E self w).world).1,
            some e :: (runCalls E self catching cs (c.run E self w).world).2)
        else ((c.run E self w).world, [some e])

/-- A host that builds a bridge and then makes the calls on it.  The first
    outcome is that of the constructor; when it throws there is no bridge and
    no call is made. -/
def session (E : Env) (pythonScript : String) (debug catching : Bool) (calls : List Call)
    (w : World) : World × List (Option PyErr) :=
  match (pythonPal.construct E pythonScript debug w).self with
  | none =>
      ((pythonPal.construct E pythonScript debug w).result.world,
        [(pythonPal.construct E pythonScript debug w).result.err])
  | some self =>
      ((runCalls E self catching calls (pythonPal.construct E pythonScript debug w).result.world).1,
        none ::
        (runCalls E self catching calls (pythonPal.construct E pythonScript debug w).result.world).2)

/-! ## The drivers `pythonPalIcoFoam` -/

/-- Boundary patch number `patchI`: `U.boundaryField()[patchI]` and
    `k.boundaryField()[patchI]`. -/
structure Patch where
  U : HostList
  k : HostList
  deriving DecidableEq, Repr

/-- The command both drivers run after publishing `U` and `k`. -/
def calculatekCmd : String := "k[:, :] = calculatek(U)"

namespace foundation

/-- Lines 137-149 of `pythonPalIcoFoam.foundation.C`:
    `forAll(U.boundaryField(), patchI)` with the size guard. -/
def boundaryLoop (E : Env) (myPythonPal : pythonPal) : List Patch → World → Result
  | [], w => ⟨w, none⟩
  | p :: rest, w =>
    if p.U.size ≠ 0 then
      ((((myPythonPal.passToPython E p.U "U" w).andThen
        (myPythonPal.passToPython E p.k "k")).andThen
        (myPythonPal.execute E calculatekCmd)).andThen
        (boundaryLoop E myPythonPal rest))
    else boundaryLoop E myPythonPal rest w

/-- Lines 185-219 of `pythonPalIcoFoam.foundation.C`: three scalars published,
    then retrieved; the values retrieved, in order (the lines the driver prints
    are left out). -/
def scalarTest (myPythonPal : pythonPal) (w : World) : Except PyErr (List F64) :=
  let number1 : F64 := F64.one
  let number4 : F64 := F64.four
  let w := (myPythonPal.passScalarToPython F64.two "numberDevelopers" w).world
  let w := (myPythonPal.passScalarToPython number1 "number1InPython" w).world
  let w := (myPythonPal.passScalarToPython number4 "number4InPython" w).world
  let r1 := myPythonPal.retrieveScalarFromPython "numberDevelopers" w
  match r1.value with
  | .error e => .error e
  | .ok totalDevelopers =>
    let r2 := myPythonPal.retrieveScalarFromPython "number1InPython" r1.world
    match r2.value with
    | .error e => .error e
    | .ok number1FromPython =>
      let r3 := myPythonPal.retrieveScalarFromPython "number4InPython" r2.world
      match r3.value with
      | .error e => .error e
      | .ok number4FromPython => .ok [totalDevelopers, number1FromPython, number4FromPython]

end foundation

namespace foamextend

/-- Lines 137-149 of `pythonPalIcoFoam.foamextend.C`:
    `forAll(U.boundaryField(), patchI)` with the size guard. -/
def boundaryLoop (E : Env) (myPythonPal : pythonPal) : List Patch → World → Result
  | [], w => ⟨w, none⟩
  | p :: rest, w =>
    if p.U.size ≠ 0 then
      ((((myPythonPal.passToPython E p.U "U" w).andThen
        (myPythonPal.passToPython E p.k "k")).andThen
        (myPythonPal.execute E calculatekCmd)).andThen
        (boundaryLoop E myPythonPal rest))
    else boundaryLoop E myPythonPal rest w

/-- Lines 182-196 of `pythonPalIcoFoam.foamextend.C`: one scalar published,
    then retrieved; the value retrieved. -/
def scalarTest (myPythonPal : pythonPal) (w : World) : Except PyErr (List F64) :=
  let w := (myPythonPal.passScalarToPython F64.two "numberDevelopers" w).world
  let r1 := myPythonPal.retrieveScalarFromPython "numberDevelopers" w
  match r1.value with
  | .error e => .error e
  | .ok totalDevelopers => .ok [totalDevelopers]

end foamextend

/-- The calls the size guard lets through: for each patch in index order, the
    three calls when the patch of `U` has elements, none otherwise. -/
def guardedCalls : List Patch → List Call
  | [] => []
  | p :: rest =>
    (if p.U.size ≠ 0 then
      [Call.passToPython p.U "U", Call.passToPython p.k "k", Call.execute calculatekCmd]
    else []) ++ guardedCalls rest

/-! ## A sample environment -/

/-- A small environment for concrete runs: the two imports bind the modules,
    `U[:, :] = 1.0` writes through the array bound to `U`, the statement `raise
    ValueError` fails, any other statement and any script does nothing. -/
def sampleEnv : Env where
  run code st :=
    if code = "import numpy as np" then
      ({ st with scope := st.scope.set "np" (.module "numpy") }, none)
    else if code = "import ctypes as C" then
      ({ st with scope := st.scope.set "C" (.module "ctypes") }, none)
    else if code = "U[:, :] = 1.0" then
      match st.scope "U" with
      | some (.ndarray base rows cols) =>
          ({ st with mem := fillCells st.mem base rows cols F64.one }, none)
      | _ => (st, some "NameError")
    else if code = "raise ValueError" then (st, some "ValueError")
    else (st, none)
  runFile _ st := (st, none)
  freshMain := fun x => if x = "__name__" then some (.str "__main__") else none
  expand p := p

/-- A process in which no interpreter has been started; memory is all zero. -/
def coldWorld : World :=
  { initialized := false
    py := { scope := fun _ => none, mem := fun _ => 0 }
    trace := [] }

/-- The world after a bridge has been built in `coldWorld` under `sampleEnv`. -/
def warmWorld : World :=
  (pythonPal.construct sampleEnv "python_script.py" true coldWorld).result.world

/-- The bridge of the drivers. -/
def myPythonPal : pythonPal :=
  ⟨"python_script.py", .mainDict, true⟩

/-- A velocity-like buffer: 10 elements of 3 components at address 4096. -/
def sampleList : HostList := ⟨4096, 10, 3⟩

/-- An empty `List`: no elements, no storage. -/
def emptyList : HostList := ⟨0, 0, 3⟩

/-- The world after `sampleList`, all zero, has been published under `U` and
    the snippet `U[:, :] = 1.0` executed. -/
def filledWorld : World :=
  ((myPythonPal.passToPython sampleEnv sampleList "U" warmWorld).andThen
    (myPythonPal.execute sampleEnv "U[:, :] = 1.0")).world

/-- A second bridge, built after `myPythonPal`. -/
def secondPal : pythonPal :=
  ⟨"other_script.py", .mainDict, false⟩

/-- The world after the second bridge has been built in `warmWorld`. -/
def twoBridgeWorld : World :=
  (pythonPal.construct sampleEnv "other_script.py" false warmWorld).result.world

/-- The names `passToPython` uses for itself in the scope. -/
def helperNames : List String :=
  ["SIZE", "name", "dim", "myList_address", "data_pointer_myList"]

/-- The state after the four item assignments of `passToPython`. -/
def staged (st : PyState) (L : HostList) (n : String) : PyState :=
  { st with scope :=
      (((st.scope.set "SIZE" (.int L.size)).set "name" (.str n)).set "dim"
        (.int (L.nComponents : Int))).set "myList_address" (.int (toLong L.cdata)) }

/-- The state after the cast statement, in a standard scope. -/
def pointed (st : PyState) (L : HostList) (n : String) : PyState :=
  { staged st L n with scope :=
      (staged st L n).scope.set "data_pointer_myList" (.pointer (ofLong (toLong L.cdata))) }


/-- An empty patch. -/
def emptyPatch : Patch := ⟨emptyList, ⟨0, 0, 1⟩⟩

/-- A patch of four faces: velocities at 8192, `k` at 12288. -/
def wallPatch : Patch := ⟨⟨8192, 4, 3⟩, ⟨12288, 4, 1⟩⟩

/-- A patch of two faces: velocities at 16384, `k` at 20480. -/
def inletPatch : Patch := ⟨⟨16384, 2, 3⟩, ⟨20480, 2, 1⟩⟩

/-! ## Predicates on operations -/

/-- An operation that neither starts nor stops the interpreter. -/
def Quiet (f : World → Result) : Prop :=
  ∀ w, (f w).world.initialized = w.initialized ∧ initCount (f w).world.trace = initCount w.trace

/-- Two worlds that differ at most in diagnostic lines. -/
def Agree (a b : World) : Prop :=
  a.initialized = b.initialized ∧ a.py = b.py ∧ steps a.trace = steps b.trace

/-- Two results with the same error whose worlds differ at most in diagnostic
    lines. -/
def ResAgree (r s : Result) : Prop :=
  Agree r.world s.world ∧ r.err = s.err

/-- An operation whose calls are the given ones, in order: all of them when it
    returns, the first few when it throws. -/
def Traced (f : World → Result) (cs : List Call) : Prop :=
  ∀ w, ∃ done, callsOf (f w).world.trace = callsOf w.trace ++ done ∧ done <+: cs ∧
    ((f w).err = none → done = cs)

end PythonPal

namespace PythonPal

/-! ## Basic facts -/

theorem scope_set_apply (s : Scope) (k : String) (v : PyVal) (x : String) :
    s.set k v x = if x = k then some v else s x := rfl

theorem ofLong_toLong (a : Nat) (h : a < 2 ^ 64) : ofLong (toLong a) = a := by
  unfold ofLong toLong
  split <;> omega

theorem plain_not_comment (n : String) (h : isPlainName n = true) : isCommentText n = false := by
  unfold isPlainName at h
  unfold isCommentText
  cases hn : n.toList with
  | nil => rfl
  | cons c cs =>
    rw [hn] at h
    simp only [Bool.and_eq_true] at h
    have hc : isIdentStart c = true := h.1.1
    have : (c == '#') = false := by
      by_contra hne
      simp at hne
      subst hne
      exact absurd hc (by decide)
    simp [this]

theorem scope_eq (self : pythonPal) (w : World) : self.scope w = w.py.scope := by
  unfold pythonPal.scope
  cases self.scope_
  rfl

@[simp] theorem infoIf_py (w : World) (d : Bool) (f m : String) : (w.infoIf d f m).py = w.py := by
  unfold World.infoIf World.emit; split <;> rfl

@[simp] theorem infoIf_initialized (w : World) (d : Bool) (f m : String) :
    (w.infoIf d f m).initialized = w.initialized := by
  unfold World.infoIf World.emit; split <;> rfl

@[simp] theorem steps_infoIf (w : World) (d : Bool) (f m : String) :
    steps (w.infoIf d f m).trace = steps w.trace := by
  unfold World.infoIf World.emit steps; split <;> simp [Event.isInfo]

theorem steps_emit (w : World) (e : Event) :
    steps (w.emit e).trace = steps w.trace ++ if e.isInfo then [] else [e] := by
  unfold World.emit steps
  cases h : e.isInfo <;> simp [h]

theorem callsOf_emit (w : World) (e : Event) :
    callsOf (w.emit e).trace = callsOf w.trace ++ callsOf [e] := by
  unfold World.emit callsOf
  simp

theorem initCount_emit (w : World) (e : Event) :
    initCount (w.emit e).trace = initCount w.trace + initCount [e] := by
  unfold World.emit initCount
  simp

@[simp] theorem callsOf_infoIf (w : World) (d : Bool) (f m : String) :
    callsOf (w.infoIf d f m).trace = callsOf w.trace := by
  unfold World.infoIf World.emit callsOf; split <;> simp

@[simp] theorem initCount_infoIf (w : World) (d : Bool) (f m : String) :
    initCount (w.infoIf d f m).trace = initCount w.trace := by
  unfold World.infoIf World.emit initCount; split <;> simp

/-! ## `passToPython`, step by step -/

theorem passToPython_err (E : Env) (self : pythonPal) (L : HostList) (n : String) (w : World) :
    (self.passToPython E L n w).err =
      match (pyExec E castStmt (staged w.py L n)).2 with
      | none => (pyExec E asArrayStmt (pyExec E castStmt (staged w.py L n)).1).2
      | some e => some e := by
  simp only [pythonPal.passToPython, Result.andThen, World.exec, World.setItem, World.emit,
    infoIf_py, staged]
  split <;> rename_i h <;> simp [h]

theorem passToPython_py (E : Env) (self : pythonPal) (L : HostList) (n : String) (w : World) :
    (self.passToPython E L n w).world.py =
      match (pyExec E castStmt (staged w.py L n)).2 with
      | none => (pyExec E asArrayStmt (pyExec E castStmt (staged w.py L n)).1).1
      | some _ => (pyExec E castStmt (staged w.py L n)).1 := by
  simp only [pythonPal.passToPython, Result.andThen, World.exec, World.setItem, World.emit,
    infoIf_py, staged]
  split <;> rename_i h <;> simp [h]

theorem passToPython_steps (E : Env) (self : pythonPal) (L : HostList) (n : String) (w : World) :
    steps (self.passToPython E L n w).world.trace =
      steps w.trace ++ [.call (.passToPython L n), .exec castStmt] ++
      match (pyExec E castStmt (staged w.py L n)).2 with
      | none => [.exec asArrayStmt]
      | some _ => [] := by
  simp only [pythonPal.passToPython, Result.andThen, World.exec, World.setItem, infoIf_py, staged]
  split <;> rename_i h <;> simp only [World.emit] at h <;>
    simp [h, steps_emit, steps_infoIf, Event.isInfo]

theorem cast_std (E : Env) (st : PyState) (L : HostList) (n : String)
    (hC : st.scope "C" = some (.module "ctypes")) :
    pyExec E castStmt (staged st L n) = (pointed st L n, none) := by
  simp [pyExec, execCast, staged, pointed, scope_set_apply, hC]

theorem asArray_std (E : Env) (st : PyState) (L : HostList) (n : String)
    (hnp : st.scope "np" = some (.module "numpy")) (hexec : st.scope "exec" = none)
    (hn : isPlainName n = true) :
    pyExec E asArrayStmt (pointed st L n) =
      if ofLong (toLong L.cdata) = 0 then (pointed st L n, some "ValueError: NULL pointer access")
      else (⟨(pointed st L n).scope.set n
                (.ndarray (ofLong (toLong L.cdata)) L.size L.nComponents), st.mem⟩, none) := by
  have hcom := plain_not_comment n hn
  simp [pyExec, execAsArray, staged, pointed, scope_set_apply, hnp, hexec, hcom, hn, castStmt,
    asArrayStmt]

/-- In a standard scope and under a plain name, `passToPython` fails exactly on
    a null address, and otherwise binds the name to the array. -/
theorem passToPython_std (E : Env) (self : pythonPal) (L : HostList) (n : String) (w : World)
    (hstd : StdScope w.py.scope) (hn : isPlainName n = true) (hL : L.cdata < 2 ^ 64) :
    ((self.passToPython E L n w).err =
        if L.cdata = 0 then some "ValueError: NULL pointer access" else none) ∧
    (self.passToPython E L n w).world.py =
        if L.cdata = 0 then pointed w.py L n
        else ⟨(pointed w.py L n).scope.set n (.ndarray L.cdata L.size L.nComponents), w.py.mem⟩ := by
  obtain ⟨hnp, hC, hexec⟩ := hstd
  rw [passToPython_err, passToPython_py, cast_std E _ L n hC]
  simp only [asArray_std E _ L n hnp hexec hn, ofLong_toLong L.cdata hL]
  split <;> simp

/-- Outside the helper names and the target, `passToPython` leaves every
    binding of a standard scope as it was. -/
theorem pointed_frame (st : PyState) (L : HostList) (n x : String) (hx : x ∉ helperNames) :
    (pointed st L n).scope x = st.scope x := by
  simp only [helperNames, List.mem_cons, List.mem_singleton, List.not_mem_nil, or_false,
    not_or] at hx
  obtain ⟨h1, h2, h3, h4, h5⟩ := hx
  simp [pointed, staged, scope_set_apply, h1, h2, h3, h4, h5]

/-! ## C1: what `passToPython` binds -/

/-- C1, as stated, fails: the text `#U` is a well-formed `std::string`, the
    call `passToPython(sampleList, "#U")` succeeds (the statement it builds is a
    Python comment), and afterwards the scope has no binding for `#U`. -/
theorem passToPython_comment_name_unbound :
    sampleList.valid ∧
    (myPythonPal.passToPython sampleEnv sampleList "#U" warmWorld).err = none ∧
    myPythonPal.scope (myPythonPal.passToPython sampleEnv sampleList "#U" warmWorld).world "#U"
      = none := by
  decide

/-- C1, amended: in a scope where `np`, `C` and `exec` have their usual
    meaning, for every host list (with a 64-bit address) and every target name
    that is a plain identifier, a successful `passToPython` leaves the name
    bound to a double-precision array whose base address is `cdata()` and whose
    shape is `(size(), nComponents)`. -/
theorem passToPython_binds_view (E : Env) (self : pythonPal) (L : HostList) (n : String)
    (w : World) (hstd : StdScope (self.scope w)) (hn : isPlainName n = true)
    (hL : L.cdata < 2 ^ 64) (hok : (self.passToPython E L n w).err = none) :
    self.scope (self.passToPython E L n w).world n =
      some (.ndarray L.cdata L.size L.nComponents) := by
  rw [scope_eq] at hstd ⊢
  obtain ⟨herr, hpy⟩ := passToPython_std E self L n w hstd hn hL
  rw [herr] at hok
  have h0 : L.cdata ≠ 0 := by
    intro h
    simp [h] at hok
  rw [hpy, if_neg h0]
  simp [scope_set_apply]

/-- C1, amended, at a concrete call: `sampleList` published under `U`. -/
theorem passToPython_binds_view_witness :
    StdScope (myPythonPal.scope warmWorld) ∧ isPlainName "U" = true ∧
    sampleList.cdata < 2 ^ 64 ∧
    (myPythonPal.passToPython sampleEnv sampleList "U" warmWorld).err = none ∧
    myPythonPal.scope (myPythonPal.passToPython sampleEnv sampleList "U" warmWorld).world "U" =
      some (.ndarray 4096 10 3) :=
  ⟨by decide, by decide, by decide, by decide,
    passToPython_binds_view sampleEnv myPythonPal sampleList "U" warmWorld
      (by decide) (by decide) (by decide) (by decide)⟩

/-! ## C2: the array aliases the host buffer -/

/-- C2: a non-empty host buffer `B` published under a plain name `N` (in a
    standard scope) is published without error, and at every later world in
    which `N` is still bound to what the publish bound it to, reading `N[i, j]`
    gives component `j` of host element `i` as memory holds it then, whoever
    wrote it; in particular a host write to that cell is what `N[i, j]` reads.
    The array holds the address of the buffer and no data. -/
theorem view_aliases_host_buffer (E : Env) (self : pythonPal) (B : HostList) (N : String)
    (w : World) (hstd : StdScope (self.scope w)) (hN : isPlainName N = true)
    (hB : B.valid) (hne : B.size ≠ 0) :
    (self.passToPython E B N w).err = none ∧
    ∀ later : World,
      self.scope later N = self.scope (self.passToPython E B N w).world N →
      (∀ i j, readIndex later.py N i j =
          if i < B.size ∧ j < B.nComponents then some (B.read later.py.mem i j) else none) ∧
      (∀ i j x, i < B.size → j < B.nComponents →
          readIndex ⟨later.py.scope, B.write later.py.mem i j x⟩ N i j = some x) := by
  rw [scope_eq] at hstd
  obtain ⟨herr, hpy⟩ := passToPython_std E self B N w hstd hN hB.1
  have h0 : B.cdata ≠ 0 := fun h => hne (hB.2.mp h)
  rw [if_neg h0] at herr hpy
  refine ⟨herr, ?_⟩
  intro later hlater
  rw [scope_eq, scope_eq, hpy] at hlater
  simp only [scope_set_apply, if_true] at hlater
  have hcell : ∀ i j, B.cdata + 8 * (i * B.nComponents + j) =
      B.cdata + i * (8 * B.nComponents) + 8 * j := by
    intro i j
    ring
  constructor
  · intro i j
    simp only [readIndex, hlater, HostList.read, hcell]
  · intro i j x hi hj
    simp only [readIndex, hlater, HostList.write, hcell, hi, hj, and_self, if_true]

/-- C2 on the scenario of the specification: ten elements of three components,
    all zero, published under `U`; after the snippet `U[:, :] = 1.0` every
    `U[i, j]` reads the host value, and all thirty host values are 1.0. -/
theorem view_aliases_host_buffer_witness :
    StdScope (myPythonPal.scope warmWorld) ∧ isPlainName "U" = true ∧ sampleList.valid ∧
    sampleList.size ≠ 0 ∧
    (∀ i j, readIndex filledWorld.py "U" i j =
        if i < sampleList.size ∧ j < sampleList.nComponents
        then some (sampleList.read filledWorld.py.mem i j) else none) ∧
    (∀ i, i < 10 → ∀ j, j < 3 → sampleList.read warmWorld.py.mem i j = 0) ∧
    (∀ i, i < 10 → ∀ j, j < 3 → sampleList.read filledWorld.py.mem i j = F64.one) :=
  ⟨by decide, by decide, by decide, by decide,
    ((view_aliases_host_buffer sampleEnv myPythonPal sampleList "U" warmWorld
      (by decide) (by decide) (by decide) (by decide)).2 filledWorld (by decide)).1,
    by decide, by decide⟩

/-! ## C3: an empty list -/

/-- C3, as stated, fails: for the empty list (size 0, null `cdata()`) the call
    `passToPython(emptyList, "U")` runs the pointer cast and the `as_array`
    statement like for any other list, and the latter raises. -/
theorem passToPython_empty_runs_cast_and_raises :
    emptyList.valid ∧ emptyList.size = 0 ∧
    (myPythonPal.passToPython sampleEnv emptyList "U" warmWorld).world.trace =
      warmWorld.trace ++
        [.call (.passToPython emptyList "U"),
         .info "passToPython(...)" "Passing field to Python: U",
         .exec castStmt, .exec asArrayStmt] ∧
    (myPythonPal.passToPython sampleEnv emptyList "U" warmWorld).err =
      some "ValueError: NULL pointer access" := by
  decide

/-- C3, amended: `passToPython` has no test on the size.  For every list it
    runs the pointer cast, and the `as_array` statement when the cast did not
    raise.  For an empty list (null `cdata()`), in a standard scope and under a
    plain name, both statements are run, `as_array` raises on the null pointer
    so that the call fails, and no binding other than those of the five helper
    names changes: no array is bound. -/
theorem passToPython_no_size_guard (E : Env) (self : pythonPal) (L : HostList) (n : String)
    (w : World) :
    (∃ rest, steps (self.passToPython E L n w).world.trace =
        steps w.trace ++ [.call (.passToPython L n), .exec castStmt] ++ rest ∧
        (rest = [] ∨ rest = [.exec asArrayStmt])) ∧
    (StdScope (self.scope w) → isPlainName n = true → L.valid → L.size = 0 →
      steps (self.passToPython E L n w).world.trace =
        steps w.trace ++ [.call (.passToPython L n), .exec castStmt, .exec asArrayStmt] ∧
      (self.passToPython E L n w).err = some "ValueError: NULL pointer access" ∧
      ∀ x, x ∉ helperNames →
        self.scope (self.passToPython E L n w).world x = self.scope w x) := by
  constructor
  · rw [passToPython_steps]
    cases (pyExec E castStmt (staged w.py L n)).2 with
    | none => exact ⟨_, rfl, Or.inr rfl⟩
    | some e => exact ⟨_, rfl, Or.inl rfl⟩
  · intro hstd hn hL h0
    rw [scope_eq] at hstd
    have hc : L.cdata = 0 := hL.2.mpr h0
    obtain ⟨herr, hpy⟩ := passToPython_std E self L n w hstd hn hL.1
    rw [if_pos hc] at herr hpy
    refine ⟨?_, herr, ?_⟩
    · rw [passToPython_steps, cast_std E _ L n hstd.2.1]
      simp
    · intro x hx
      rw [scope_eq, scope_eq, hpy]
      exact pointed_frame w.py L n x hx

/-- C3, amended, at a concrete call: the empty list published under `U`. -/
theorem passToPython_no_size_guard_witness :
    StdScope (myPythonPal.scope warmWorld) ∧ isPlainName "U" = true ∧ emptyList.valid ∧
    emptyList.size = 0 ∧ "U" ∉ helperNames ∧
    (myPythonPal.passToPython sampleEnv emptyList "U" warmWorld).err =
      some "ValueError: NULL pointer access" ∧
    myPythonPal.scope (myPythonPal.passToPython sampleEnv emptyList "U" warmWorld).world "U" =
      myPythonPal.scope warmWorld "U" :=
  ⟨by decide, by decide, by decide, by decide, by decide,
    ((passToPython_no_size_guard sampleEnv myPythonPal emptyList "U" warmWorld).2
      (by decide) (by decide) (by decide) (by decide)).2.1,
    ((passToPython_no_size_guard sampleEnv myPythonPal emptyList "U" warmWorld).2
      (by decide) (by decide) (by decide) (by decide)).2.2 "U" (by decide)⟩

/-! ## C4: the scope of two bridges -/

/-- C4, as stated, fails: two bridges are built one after the other, `U` is
    not bound in the scope of the second, the first publishes `sampleList`
    under `U`, and `U` is then bound in the scope of the second. -/
theorem second_bridge_sees_published_name :
    (pythonPal.construct sampleEnv "python_script.py" true coldWorld).self = some myPythonPal ∧
    (pythonPal.construct sampleEnv "other_script.py" false warmWorld).self = some secondPal ∧
    secondPal.scope twoBridgeWorld "U" = none ∧
    (myPythonPal.passToPython sampleEnv sampleList "U" twoBridgeWorld).err = none ∧
    secondPal.scope (myPythonPal.passToPython sampleEnv sampleList "U" twoBridgeWorld).world "U" =
      some (.ndarray 4096 10 3) := by
  decide

/-- C4, amended: every bridge refers to the one namespace of `__main__`, so
    the scopes of two bridges `A` and `B` are the same at every moment; in a
    standard scope, a list that `A` publishes successfully under a plain name
    is bound under that name, to the same array, in the scope of `B`. -/
theorem bridges_share_scope (E : Env) (A B : pythonPal) (L : HostList) (n : String) (w : World)
    (hstd : StdScope (A.scope w)) (hn : isPlainName n = true) (hL : L.cdata < 2 ^ 64)
    (hok : (A.passToPython E L n w).err = none) :
    (∀ v : World, A.scope v = B.scope v) ∧
    B.scope (A.passToPython E L n w).world n = some (.ndarray L.cdata L.size L.nComponents) := by
  refine ⟨fun v => by rw [scope_eq, scope_eq], ?_⟩
  rw [scope_eq] at hstd ⊢
  obtain ⟨herr, hpy⟩ := passToPython_std E A L n w hstd hn hL
  rw [herr] at hok
  have h0 : L.cdata ≠ 0 := by
    intro h
    simp [h] at hok
  rw [hpy, if_neg h0]
  simp [scope_set_apply]

/-- C4, amended, at a concrete run: the two bridges built under `sampleEnv`. -/
theorem bridges_share_scope_witness :
    StdScope (myPythonPal.scope twoBridgeWorld) ∧ isPlainName "U" = true ∧
    sampleList.cdata < 2 ^ 64 ∧
    (myPythonPal.passToPython sampleEnv sampleList "U" twoBridgeWorld).err = none ∧
    secondPal.scope (myPythonPal.passToPython sampleEnv sampleList "U" twoBridgeWorld).world "U" =
      some (.ndarray sampleList.cdata sampleList.size sampleList.nComponents) :=
  ⟨by decide, by decide, by decide, by decide,
    (bridges_share_scope sampleEnv myPythonPal secondPal sampleList "U" twoBridgeWorld
      (by decide) (by decide) (by decide) (by decide)).2⟩

/-! ## C5: the interpreter is started once -/

theorem quiet_andThen {f g : World → Result} (hf : Quiet f) (hg : Quiet g) :
    Quiet (fun w => (f w).andThen g) := by
  intro w
  rcases hfe : (f w).err with _ | e
  · simp only [Result.andThen, hfe]
    exact ⟨(hg _).1.trans (hf w).1, (hg _).2.trans (hf w).2⟩
  · simp only [Result.andThen, hfe]
    exact hf w

theorem quiet_after_emit {f : World → Result} (hf : Quiet f) (e : Event)
    (he : initCount [e] = 0) : Quiet (fun w => f (w.emit e)) := by
  intro w
  refine ⟨(hf _).1, (hf _).2.trans ?_⟩
  rw [initCount_emit, he]
  rfl

theorem quiet_after_infoIf {f : World → Result} (hf : Quiet f) (d : Bool) (fn m : String) :
    Quiet (fun w => f (w.infoIf d fn m)) := by
  intro w
  exact ⟨(hf _).1.trans (infoIf_initialized w d fn m),
    (hf _).2.trans (initCount_infoIf w d fn m)⟩

theorem quiet_after_setItem {f : World → Result} (hf : Quiet f) (k : String) (v : PyVal) :
    Quiet (fun w => f (w.setItem k v)) := by
  intro w
  exact ⟨(hf _).1, (hf _).2⟩

theorem quiet_exec (E : Env) (code : String) : Quiet (World.exec E code) := by
  intro w
  refine ⟨rfl, ?_⟩
  show initCount (w.emit (.exec code)).trace = _
  rw [initCount_emit]
  rfl

theorem quiet_evalFile (E : Env) (path : String) : Quiet (World.evalFile E path) := by
  intro w
  refine ⟨rfl, ?_⟩
  show initCount (w.emit (.eval_file path)).trace = _
  rw [initCount_emit]
  rfl

theorem quiet_passToPython (E : Env) (self : pythonPal) (L : HostList) (n : String) :
    Quiet (self.passToPython E L n) :=
  quiet_after_emit (quiet_after_infoIf (quiet_after_setItem (quiet_after_setItem
    (quiet_after_setItem (quiet_after_setItem
      (quiet_andThen (quiet_exec E castStmt) (quiet_exec E asArrayStmt))
      "myList_address" _) "dim" _) "name" _) "SIZE" _) _ _ _) _ rfl

theorem quiet_execute (E : Env) (self : pythonPal) (command : String) :
    Quiet (self.execute E command) :=
  quiet_after_emit (quiet_after_infoIf (quiet_exec E command) _ _ _) _ rfl

theorem quiet_load (E : Env) (p : String) (d : Bool) : Quiet (pythonPal.load E p d) :=
  quiet_after_infoIf (quiet_after_emit
    (quiet_andThen (quiet_exec E "import numpy as np")
      (quiet_andThen (quiet_exec E "import ctypes as C")
        (quiet_after_emit (quiet_after_infoIf (quiet_evalFile E (E.expand p)) _ _ _)
          (.expand p) rfl)))
    .bind_scope rfl) _ _ _

theorem quiet_call (E : Env) (self : pythonPal) (c : Call) : Quiet (c.run E self) := by
  cases c with
  | passToPython L n => exact quiet_passToPython E self L n
  | execute command => exact quiet_execute E self command

theorem ensureStarted_spec (E : Env) (d : Bool) (w : World) :
    (pythonPal.ensureStarted E d w).initialized = true ∧
    initCount (pythonPal.ensureStarted E d w).trace =
      initCount w.trace + (if w.initialized then 0 else 1) := by
  unfold pythonPal.ensureStarted
  cases h : w.initialized
  · refine ⟨rfl, ?_⟩
    show initCount ((w.infoIf d _ _).emit .initialize_interpreter).trace = _
    rw [initCount_emit, initCount_infoIf]
    rfl
  · simp [h]

theorem construct_spec (E : Env) (p : String) (d : Bool) (w : World) :
    (pythonPal.construct E p d w).result.world.initialized = true ∧
    initCount (pythonPal.construct E p d w).result.world.trace =
      initCount w.trace + (if w.initialized then 0 else 1) := by
  have h := quiet_load E p d (pythonPal.ensureStarted E d w)
  have h2 := ensureStarted_spec E d w
  exact ⟨h.1.trans h2.1, h.2.trans h2.2⟩

/-- No operation stops a live interpreter or starts a second one. -/
theorem op_live (E : Env) (op : Op) (w : World) (hw : w.initialized = true) :
    (op.run E w).world.initialized = true ∧
    initCount (op.run E w).world.trace = initCount w.trace := by
  cases op with
  | construct p d =>
    have h := construct_spec E p d w
    simpa [Op.run, hw] using h
  | destruct self => exact ⟨hw, rfl⟩
  | call self c =>
    have h := quiet_call E self c w
    exact ⟨h.1.trans hw, h.2⟩

theorem runOps_live (E : Env) (ops : List Op) :
    ∀ w : World, w.initialized = true →
      (runOps E ops w).initialized = true ∧
      initCount (runOps E ops w).trace = initCount w.trace := by
  induction ops with
  | nil => intro w hw; exact ⟨hw, rfl⟩
  | cons op ops ih =>
    intro w hw
    have h := op_live E op w hw
    have h2 := ih (op.run E w).world h.1
    exact ⟨h2.1, h2.2.trans h.2⟩

theorem runOps_started (E : Env) (ops : List Op) :
    ∀ w : World, (∃ op ∈ ops, op.isConstruct = true) →
      initCount (runOps E ops w).trace = initCount w.trace + (if w.initialized then 0 else 1) ∧
      (runOps E ops w).initialized = true := by
  induction ops with
  | nil => intro w h; simp at h
  | cons op ops ih =>
    intro w h
    cases hw : w.initialized with
    | true =>
      have := runOps_live E (op :: ops) w hw
      simpa using ⟨this.2, this.1⟩
    | false =>
      cases op with
      | construct p d =>
        have h1 := construct_spec E p d w
        have h2 := runOps_live E ops (pythonPal.construct E p d w).result.world h1.1
        simp only [runOps, Op.run]
        rw [hw] at h1
        exact ⟨by simpa using h2.2.trans h1.2, h2.1⟩
      | destruct self =>
        have hrest : ∃ o ∈ ops, o.isConstruct = true := by
          obtain ⟨o, ho, hc⟩ := h
          rcases List.mem_cons.mp ho with rfl | ho
          · simp [Op.isConstruct] at hc
          · exact ⟨o, ho, hc⟩
        have := ih w hrest
        simpa [runOps, Op.run, pythonPal.destruct, hw] using this
      | call self c =>
        have hrest : ∃ o ∈ ops, o.isConstruct = true := by
          obtain ⟨o, ho, hc⟩ := h
          rcases List.mem_cons.mp ho with rfl | ho
          · simp [Op.isConstruct] at hc
          · exact ⟨o, ho, hc⟩
        have hq := quiet_call E self c w
        have := ih (c.run E self w).world hrest
        rw [hq.1, hq.2, hw] at this
        simpa [runOps, Op.run] using this

/-- C5: over any sequence of bridge operations that contains at least one
    construction, `initialize_interpreter` is called exactly once when no
    interpreter was active at the start and not at all when one was, and an
    interpreter is active at the end; and no operation (constructor,
    destructor, `passToPython`, `execute`) makes an active interpreter
    inactive. -/
theorem interpreter_started_once (E : Env) (ops : List Op) (w : World)
    (h : ∃ op ∈ ops, op.isConstruct = true) :
    initCount (runOps E ops w).trace = initCount w.trace + (if w.initialized then 0 else 1) ∧
    (runOps E ops w).initialized = true ∧
    ∀ (op : Op) (v : World), v.initialized = true → (op.run E v).world.initialized = true :=
  ⟨(runOps_started E ops w h).1, (runOps_started E ops w h).2,
    fun op v hv => (op_live E op v hv).1⟩

/-- C5 at a concrete run: three constructions, a publish, a destruction and a
    failing command, from a process without interpreter: one start-up. -/
theorem interpreter_started_once_witness :
    initCount (runOps sampleEnv
      [.construct "python_script.py" true, .call myPythonPal (.passToPython sampleList "U"),
       .construct "other_script.py" false, .destruct myPythonPal,
       .call secondPal (.execute "raise ValueError"), .construct "third.py" true]
      coldWorld).trace = 1 :=
  (interpreter_started_once sampleEnv
      [.construct "python_script.py" true, .call myPythonPal (.passToPython sampleList "U"),
       .construct "other_script.py" false, .destruct myPythonPal,
       .call secondPal (.execute "raise ValueError"), .construct "third.py" true]
      coldWorld ⟨_, List.mem_cons_self _ _, rfl⟩).1

/-! ## C6: scalars come back as they went -/

/-- C6: a scalar published under a name and retrieved under the same name, in
    any later world where the binding of that name is still the published one,
    comes back exactly; the foundation driver gets back 2.0, 1.0 and 4.0 and
    the foam-extend driver 2.0. -/
theorem scalar_round_trip (self : pythonPal) (s : F64) (n : String) (w later : World)
    (hkeep : self.scope later n = self.scope (self.passScalarToPython s n w).world n) :
    (self.passScalarToPython s n w).err = none ∧
    (self.retrieveScalarFromPython n later).value = .ok s ∧
    foundation.scalarTest self w = .ok [F64.two, F64.one, F64.four] ∧
    foamextend.scalarTest self w = .ok [F64.two] := by
  have hscope : ∀ (v : World) (d : Bool) (f m : String),
      self.scope (v.infoIf d f m) = self.scope v := by
    intro v d f m
    rw [scope_eq, scope_eq, infoIf_py]
  refine ⟨rfl, ?_, ?_, ?_⟩
  · have : self.scope later n = some (.float s) := by
      rw [hkeep, scope_eq]
      simp [pythonPal.passScalarToPython, World.setItem, scope_set_apply]
    simp [pythonPal.retrieveScalarFromPython, hscope, this]
  · simp [foundation.scalarTest, pythonPal.retrieveScalarFromPython,
      pythonPal.passScalarToPython, hscope, scope_eq, World.setItem, scope_set_apply]
  · simp [foamextend.scalarTest, pythonPal.retrieveScalarFromPython,
      pythonPal.passScalarToPython, hscope, scope_eq, World.setItem, scope_set_apply]

/-- C6 at a concrete run: 2.0 published under `numberDevelopers`, a field
    published and a command executed in between, then retrieved. -/
theorem scalar_round_trip_witness :
    (myPythonPal.retrieveScalarFromPython "numberDevelopers"
      ((myPythonPal.passToPython sampleEnv sampleList "U"
        (myPythonPal.passScalarToPython F64.two "numberDevelopers" warmWorld).world).andThen
        (myPythonPal.execute sampleEnv "U[:, :] = 1.0")).world).value = .ok F64.two :=
  (scalar_round_trip myPythonPal F64.two "numberDevelopers" warmWorld
    ((myPythonPal.passToPython sampleEnv sampleList "U"
        (myPythonPal.passScalarToPython F64.two "numberDevelopers" warmWorld).world).andThen
        (myPythonPal.execute sampleEnv "U[:, :] = 1.0")).world (by decide)).2.1

/-! ## C7: the order of construction -/

theorem load_steps (E : Env) (p : String) (d : Bool) (w : World) :
    ∃ done, steps (pythonPal.load E p d w).world.trace = steps w.trace ++ done ∧
      done <+: [.bind_scope, .exec "import numpy as np", .exec "import ctypes as C", .expand p,
        .eval_file (E.expand p)] ∧
      ((pythonPal.load E p d w).err = none →
        done = [.bind_scope, .exec "import numpy as np", .exec "import ctypes as C", .expand p,
          .eval_file (E.expand p)] ∧
        (pythonPal.load E p d w).world.py =
          (E.runFile (E.expand p)
            (pyExec E "import ctypes as C" (pyExec E "import numpy as np" w.py).1).1).1) := by
  cases d <;>
  · simp only [pythonPal.load, Result.andThen, World.exec, World.evalFile, World.emit,
      World.infoIf, Bool.false_eq_true, if_false, if_true]
    rcases h1 : (pyExec E "import numpy as np" w.py).2 with _ | e1
    · rcases h2 : (pyExec E "import ctypes as C" (pyExec E "import numpy as np" w.py).1).2
        with _ | e2
      · refine ⟨[.bind_scope, .exec "import numpy as np", .exec "import ctypes as C",
          .expand p, .eval_file (E.expand p)], ?_, List.prefix_refl _, fun _ => ⟨rfl, ?_⟩⟩
        · simp [steps, Event.isInfo]
        · simp
      · refine ⟨[.bind_scope, .exec "import numpy as np", .exec "import ctypes as C"], ?_,
          ⟨[.expand p, .eval_file (E.expand p)], rfl⟩, fun h => by simp at h⟩
        simp [steps, Event.isInfo]
    · refine ⟨[.bind_scope, .exec "import numpy as np"], ?_,
        ⟨[.exec "import ctypes as C", .expand p, .eval_file (E.expand p)], rfl⟩,
        fun h => by simp at h⟩
      simp [steps, Event.isInfo]

theorem ensureStarted_steps (E : Env) (d : Bool) (w : World) :
    steps (pythonPal.ensureStarted E d w).trace =
      steps w.trace ++ (if w.initialized then [] else [Event.initialize_interpreter]) := by
  unfold pythonPal.ensureStarted
  cases h : w.initialized
  · show steps ((w.infoIf d _ _).emit .initialize_interpreter).trace = _
    rw [steps_emit, steps_infoIf]
    rfl
  · simp

/-- C7: the constructor takes its steps in the order: start the interpreter
    if none is live, bind the scope, run `import numpy as np`, run `import
    ctypes as C`, expand the script path, evaluate the file at the expanded
    path.  A construction that throws stops somewhere along this list and
    yields no object; one that returns has taken every step once, the file
    being evaluated last, in the state left by the two imports, and yields the
    bridge. -/
theorem construct_order (E : Env) (p : String) (d : Bool) (w : World) :
    (∃ done, steps (pythonPal.construct E p d w).result.world.trace = steps w.trace ++ done ∧
      done <+: (if w.initialized then [] else [Event.initialize_interpreter]) ++
        [.bind_scope, .exec "import numpy as np", .exec "import ctypes as C", .expand p,
         .eval_file (E.expand p)]) ∧
    ((pythonPal.construct E p d w).result.err = none →
      steps (pythonPal.construct E p d w).result.world.trace =
        steps w.trace ++ (if w.initialized then [] else [Event.initialize_interpreter]) ++
          [.bind_scope, .exec "import numpy as np", .exec "import ctypes as C", .expand p,
           .eval_file (E.expand p)] ∧
      (pythonPal.construct E p d w).result.world.py =
        (E.runFile (E.expand p)
          (pyExec E "import ctypes as C"
            (pyExec E "import numpy as np" (pythonPal.ensureStarted E d w).py).1).1).1 ∧
      (pythonPal.construct E p d w).self = some ⟨E.expand p, .mainDict, d⟩) ∧
    ((pythonPal.construct E p d w).result.err ≠ none →
      (pythonPal.construct E p d w).self = none) := by
  obtain ⟨done, hsteps, hpre, hok⟩ := load_steps E p d (pythonPal.ensureStarted E d w)
  rw [ensureStarted_steps] at hsteps
  refine ⟨⟨(if w.initialized then [] else [Event.initialize_interpreter]) ++ done, ?_, ?_⟩,
    ?_, ?_⟩
  · simpa [pythonPal.construct, List.append_assoc] using hsteps
  · exact (List.prefix_append_right_inj _).mpr hpre
  · intro h
    have h2 : (pythonPal.load E p d (pythonPal.ensureStarted E d w)).err = none := h
    obtain ⟨hd, hpy⟩ := hok h2
    refine ⟨?_, hpy, ?_⟩
    · rw [← hd]
      simpa [pythonPal.construct, List.append_assoc] using hsteps
    · simp [pythonPal.construct, h2]
  · intro h
    have h2 : (pythonPal.load E p d (pythonPal.ensureStarted E d w)).err ≠ none := h
    rcases h3 : (pythonPal.load E p d (pythonPal.ensureStarted E d w)).err with _ | e
    · exact absurd h3 h2
    · simp [pythonPal.construct, h3]

/-- C7 at a concrete run: the bridge of the drivers built in a process without
    interpreter. -/
theorem construct_order_witness :
    (pythonPal.construct sampleEnv "python_script.py" true coldWorld).result.err = none ∧
    steps (pythonPal.construct sampleEnv "python_script.py" true coldWorld).result.world.trace =
      [.initialize_interpreter, .bind_scope, .exec "import numpy as np",
       .exec "import ctypes as C", .expand "python_script.py", .eval_file "python_script.py"] :=
  ⟨by decide,
    ((construct_order sampleEnv "python_script.py" true coldWorld).2.1 (by decide)).1⟩

/-! ## C8: `execute` -/

/-- C8: `execute(command)` runs the command once, in the state it finds, on
    the scope of the bridge: its error is the error of that run, passed on as
    it is, its final state is the state that run leaves (also when it raised),
    the one step it takes after being entered is that `py::exec`, and it leaves
    the interpreter as it is. -/
theorem execute_runs_once (E : Env) (self : pythonPal) (command : String) (w : World) :
    (self.execute E command w).err = (pyExec E command ⟨self.scope w, w.py.mem⟩).2 ∧
    (self.execute E command w).world.py = (pyExec E command ⟨self.scope w, w.py.mem⟩).1 ∧
    steps (self.execute E command w).world.trace =
      steps w.trace ++ [.call (.execute command), .exec command] ∧
    (self.execute E command w).world.initialized = w.initialized := by
  rw [scope_eq]
  refine ⟨?_, ?_, ?_, ?_⟩
  · simp only [pythonPal.execute, World.exec, infoIf_py]
    rfl
  · simp only [pythonPal.execute, World.exec, infoIf_py]
    rfl
  · simp only [pythonPal.execute, World.exec]
    show steps (((w.emit _).infoIf _ _ _).emit _).trace = _
    rw [steps_emit, steps_infoIf, steps_emit]
    simp [Event.isInfo]
  · simp [pythonPal.execute, World.exec, World.emit]

/-! ## C9: the debug flag -/

theorem agree_emit {a b : World} (h : Agree a b) (e : Event) : Agree (a.emit e) (b.emit e) := by
  refine ⟨h.1, h.2.1, ?_⟩
  rw [steps_emit, steps_emit, h.2.2]

theorem agree_infoIf {a b : World} (h : Agree a b) (d1 d2 : Bool) (f m : String) :
    Agree (a.infoIf d1 f m) (b.infoIf d2 f m) := by
  refine ⟨?_, ?_, ?_⟩
  · rw [infoIf_initialized, infoIf_initialized, h.1]
  · rw [infoIf_py, infoIf_py, h.2.1]
  · rw [steps_infoIf, steps_infoIf, h.2.2]

theorem agree_setItem {a b : World} (h : Agree a b) (k : String) (v : PyVal) :
    Agree (a.setItem k v) (b.setItem k v) := by
  refine ⟨h.1, ?_, h.2.2⟩
  simp only [World.setItem, h.2.1]

theorem agree_exec {a b : World} (h : Agree a b) (E : Env) (code : String) :
    ResAgree (a.exec E code) (b.exec E code) := by
  refine ⟨⟨h.1, ?_, ?_⟩, ?_⟩
  · show (pyExec E code a.py).1 = (pyExec E code b.py).1
    rw [h.2.1]
  · show steps (a.emit (.exec code)).trace = steps (b.emit (.exec code)).trace
    rw [steps_emit, steps_emit, h.2.2]
  · show (pyExec E code a.py).2 = (pyExec E code b.py).2
    rw [h.2.1]

theorem agree_evalFile {a b : World} (h : Agree a b) (E : Env) (path : String) :
    ResAgree (a.evalFile E path) (b.evalFile E path) := by
  refine ⟨⟨h.1, ?_, ?_⟩, ?_⟩
  · show (E.runFile path a.py).1 = (E.runFile path b.py).1
    rw [h.2.1]
  · show steps (a.emit (.eval_file path)).trace = steps (b.emit (.eval_file path)).trace
    rw [steps_emit, steps_emit, h.2.2]
  · show (E.runFile path a.py).2 = (E.runFile path b.py).2
    rw [h.2.1]

theorem resAgree_andThen {r s : Result} {f g : World → Result} (h : ResAgree r s)
    (hfg : ∀ a b, Agree a b → ResAgree (f a) (g b)) : ResAgree (r.andThen f) (s.andThen g) := by
  obtain ⟨hw, he⟩ := h
  unfold Result.andThen
  rw [← he]
  rcases r.err with _ | e
  · exact hfg _ _ hw
  · exact ⟨hw, rfl⟩

theorem agree_passToPython (E : Env) (s1 s2 : pythonPal) (L : HostList) (n : String)
    {a b : World} (h : Agree a b) :
    ResAgree (s1.passToPython E L n a) (s2.passToPython E L n b) :=
  resAgree_andThen
    (agree_exec (agree_setItem (agree_setItem (agree_setItem (agree_setItem
      (agree_infoIf (agree_emit h _) _ _ _ _) _ _) _ _) _ _) _ _) E castStmt)
    (fun _ _ hab => agree_exec hab E asArrayStmt)

theorem agree_execute (E : Env) (s1 s2 : pythonPal) (command : String) {a b : World}
    (h : Agree a b) : ResAgree (s1.execute E command a) (s2.execute E command b) :=
  agree_exec (agree_infoIf (agree_emit h _) _ _ _ _) E command

theorem agree_call (E : Env) (s1 s2 : pythonPal) (c : Call) {a b : World} (h : Agree a b) :
    ResAgree (c.run E s1 a) (c.run E s2 b) := by
  cases c with
  | passToPython L n => exact agree_passToPython E s1 s2 L n h
  | execute command => exact agree_execute E s1 s2 command h

theorem agree_ensureStarted (E : Env) (d1 d2 : Bool) {a b : World} (h : Agree a b) :
    Agree (pythonPal.ensureStarted E d1 a) (pythonPal.ensureStarted E d2 b) := by
  unfold pythonPal.ensureStarted
  rw [← h.1]
  cases a.initialized
  · have h2 := agree_emit (agree_infoIf h d1 d2 "pythonPal(...)"
      "Initialising Python interpretor") .initialize_interpreter
    refine ⟨rfl, ?_, h2.2.2⟩
    simp [World.startUp, World.emit, h.2.1]
  · exact h

theorem agree_load (E : Env) (p : String) (d1 d2 : Bool) {a b : World} (h : Agree a b) :
    ResAgree (pythonPal.load E p d1 a) (pythonPal.load E p d2 b) :=
  resAgree_andThen
    (agree_exec (agree_emit (agree_infoIf h _ _ _ _) _) E "import numpy as np")
    (fun _ _ h1 => resAgree_andThen (agree_exec h1 E "import ctypes as C")
      (fun _ _ h2 => agree_evalFile (agree_infoIf (agree_emit h2 _) _ _ _ _) E (E.expand p)))

theorem agree_runCalls (E : Env) (s1 s2 : pythonPal) (catching : Bool) (calls : List Call) :
    ∀ a b : World, Agree a b →
      Agree (runCalls E s1 catching calls a).1 (runCalls E s2 catching calls b).1 ∧
      (runCalls E s1 catching calls a).2 = (runCalls E s2 catching calls b).2 := by
  induction calls with
  | nil => intro a b h; exact ⟨h, rfl⟩
  | cons c cs ih =>
    intro a b h
    obtain ⟨hw, he⟩ := agree_call E s1 s2 c h
    have hrest := ih _ _ hw
    simp only [runCalls]
    rw [← he]
    rcases (c.run E s1 a).err with _ | e
    · exact ⟨hrest.1, by rw [hrest.2]⟩
    · cases catching
      · exact ⟨hw, rfl⟩
      · exact ⟨hrest.1, by simp [hrest.2]⟩

theorem agree_session (E : Env) (p : String) (d1 d2 catching : Bool) (calls : List Call)
    (w : World) :
    Agree (session E p d1 catching calls w).1 (session E p d2 catching calls w).1 ∧
    (session E p d1 catching calls w).2 = (session E p d2 catching calls w).2 := by
  obtain ⟨hw, he⟩ := agree_load E p d1 d2
    (agree_ensureStarted E d1 d2 (⟨rfl, rfl, rfl⟩ : Agree w w))
  simp only [session, pythonPal.construct]
  rw [← he]
  rcases (pythonPal.load E p d1 (pythonPal.ensureStarted E d1 w)).err with _ | e
  · have := agree_runCalls E ⟨E.expand p, .mainDict, d1⟩ ⟨E.expand p, .mainDict, d2⟩ catching
      calls _ _ hw
    exact ⟨this.1, by simp [this.2]⟩
  · exact ⟨hw, rfl⟩

/-- C9: for every script path, every starting world and every sequence of
    `passToPython` and `execute` calls, a bridge built with `debug = true` and
    one built with `debug = false` give the same outcome (success or the same
    error) for the construction and for every call, end with the interpreter in
    the same state and with the same scope and memory, and take the same steps:
    their traces differ only in diagnostic lines. -/
theorem debug_is_observability_only (E : Env) (pythonScript : String) (catching : Bool)
    (calls : List Call) (w : World) :
    (session E pythonScript true catching calls w).2 =
      (session E pythonScript false catching calls w).2 ∧
    (session E pythonScript true catching calls w).1.initialized =
      (session E pythonScript false catching calls w).1.initialized ∧
    (session E pythonScript true catching calls w).1.py =
      (session E pythonScript false catching calls w).1.py ∧
    steps (session E pythonScript true catching calls w).1.trace =
      steps (session E pythonScript false catching calls w).1.trace := by
  obtain ⟨⟨h1, h2, h3⟩, h4⟩ := agree_session E pythonScript true false catching calls w
  exact ⟨h4, h1, h2, h3⟩

/-! ## C10: the size guard of the drivers -/

theorem traced_andThen {f g : World → Result} {cs ds : List Call} (hf : Traced f cs)
    (hg : Traced g ds) : Traced (fun w => (f w).andThen g) (cs ++ ds) := by
  intro w
  obtain ⟨d1, h1, p1, e1⟩ := hf w
  rcases hfe : (f w).err with _ | e
  · obtain ⟨d2, h2, p2, e2⟩ := hg (f w).world
    have hd1 : d1 = cs := e1 hfe
    subst hd1
    refine ⟨d1 ++ d2, ?_, (List.prefix_append_right_inj _).mpr p2, ?_⟩
    · simp only [Result.andThen, hfe]
      rw [h2, h1, List.append_assoc]
    · simp only [Result.andThen, hfe]
      intro h
      rw [e2 h]
  · refine ⟨d1, ?_, p1.trans (List.prefix_append _ _), ?_⟩
    · simp only [Result.andThen, hfe]
      exact h1
    · simp only [Result.andThen, hfe]
      intro h
      simp at h

theorem callsOf_exec (E : Env) (code : String) (w : World) :
    callsOf (w.exec E code).world.trace = callsOf w.trace := by
  show callsOf (w.emit (.exec code)).trace = _
  rw [callsOf_emit]
  simp [callsOf]

theorem callsOf_passToPython (E : Env) (self : pythonPal) (L : HostList) (n : String)
    (w : World) :
    callsOf (self.passToPython E L n w).world.trace = callsOf w.trace ++ [.passToPython L n] := by
  simp only [pythonPal.passToPython, Result.andThen]
  split
  · rw [callsOf_exec, callsOf_exec]
    simp only [World.setItem, callsOf_infoIf, callsOf_emit]
    simp [callsOf]
  · rw [callsOf_exec]
    simp only [World.setItem, callsOf_infoIf, callsOf_emit]
    simp [callsOf]

theorem callsOf_execute (E : Env) (self : pythonPal) (command : String) (w : World) :
    callsOf (self.execute E command w).world.trace = callsOf w.trace ++ [.execute command] := by
  simp only [pythonPal.execute]
  rw [callsOf_exec, callsOf_infoIf, callsOf_emit]
  simp [callsOf]

theorem traced_passToPython (E : Env) (self : pythonPal) (L : HostList) (n : String) :
    Traced (self.passToPython E L n) [.passToPython L n] := by
  intro w
  rcases h : (self.passToPython E L n w).err with _ | e
  · exact ⟨_, callsOf_passToPython E self L n w, List.prefix_refl _, fun _ => rfl⟩
  · exact ⟨_, callsOf_passToPython E self L n w, List.prefix_refl _, fun h => by simp at h⟩

theorem traced_execute (E : Env) (self : pythonPal) (command : String) :
    Traced (self.execute E command) [.execute command] := by
  intro w
  rcases h : (self.execute E command w).err with _ | e
  · exact ⟨_, callsOf_execute E self command w, List.prefix_refl _, fun _ => rfl⟩
  · exact ⟨_, callsOf_execute E self command w, List.prefix_refl _, fun h => by simp at h⟩

theorem traced_patch (E : Env) (self : pythonPal) (p : Patch) :
    Traced (fun w => ((self.passToPython E p.U "U" w).andThen
        (self.passToPython E p.k "k")).andThen (self.execute E calculatekCmd))
      [.passToPython p.U "U", .passToPython p.k "k", .execute calculatekCmd] :=
  traced_andThen (traced_andThen (traced_passToPython E self p.U "U")
    (traced_passToPython E self p.k "k")) (traced_execute E self calculatekCmd)

theorem traced_foundation (E : Env) (self : pythonPal) (patches : List Patch) :
    Traced (foundation.boundaryLoop E self patches) (guardedCalls patches) := by
  induction patches with
  | nil => intro w; exact ⟨[], by simp [foundation.boundaryLoop], List.prefix_refl _, fun _ => rfl⟩
  | cons p rest ih =>
    by_cases hp : p.U.size ≠ 0
    · have h := traced_andThen (traced_patch E self p) ih
      intro w
      have hw := h w
      simpa only [foundation.boundaryLoop, guardedCalls, if_pos hp] using hw
    · intro w
      have hw := ih w
      simpa only [foundation.boundaryLoop, guardedCalls, if_neg hp, List.nil_append] using hw

theorem traced_foamextend (E : Env) (self : pythonPal) (patches : List Patch) :
    Traced (foamextend.boundaryLoop E self patches) (guardedCalls patches) := by
  induction patches with
  | nil => intro w; exact ⟨[], by simp [foamextend.boundaryLoop], List.prefix_refl _, fun _ => rfl⟩
  | cons p rest ih =>
    by_cases hp : p.U.size ≠ 0
    · have h := traced_andThen (traced_patch E self p) ih
      intro w
      have hw := h w
      simpa only [foamextend.boundaryLoop, guardedCalls, if_pos hp] using hw
    · intro w
      have hw := ih w
      simpa only [foamextend.boundaryLoop, guardedCalls, if_neg hp, List.nil_append] using hw

/-- C10: in both drivers, for every list of boundary patches, the bridge calls
    made by the loop over the patches are the calls of `guardedCalls`: patch by
    patch in index order, for a patch whose `U` has elements the three calls
    publish `U` under "U", publish `k` under "k", execute
    "k[:, :] = calculatek(U)", and for a patch of size zero no call.  When the
    loop runs to its end these are all made; when a call throws, the loop stops
    there and the calls made are the first of that list. -/
theorem drivers_guard_empty_patches (E : Env) (self : pythonPal) (patches : List Patch)
    (w : World) :
    (∃ done,
      callsOf (foundation.boundaryLoop E self patches w).world.trace = callsOf w.trace ++ done ∧
      done <+: guardedCalls patches ∧
      ((foundation.boundaryLoop E self patches w).err = none → done = guardedCalls patches)) ∧
    (∃ done,
      callsOf (foamextend.boundaryLoop E self patches w).world.trace = callsOf w.trace ++ done ∧
      done <+: guardedCalls patches ∧
      ((foamextend.boundaryLoop E self patches w).err = none → done = guardedCalls patches)) ∧
    (∀ c ∈ guardedCalls patches, c = .execute calculatekCmd ∨
      ∃ p ∈ patches, p.U.size ≠ 0 ∧ (c = .passToPython p.U "U" ∨ c = .passToPython p.k "k")) ∧
    (∀ p ∈ patches, p.U.size ≠ 0 →
      Call.passToPython p.U "U" ∈ guardedCalls patches ∧
      Call.passToPython p.k "k" ∈ guardedCalls patches) := by
  refine ⟨traced_foundation E self patches w, traced_foamextend E self patches w, ?_, ?_⟩
  · induction patches with
    | nil => intro c hc; simp [guardedCalls] at hc
    | cons p rest ih =>
      intro c hc
      simp only [guardedCalls, List.mem_append] at hc
      rcases hc with hc | hc
      · by_cases hp : p.U.size ≠ 0
        · rw [if_pos hp] at hc
          simp only [List.mem_cons, List.mem_singleton, List.not_mem_nil, or_false] at hc
          rcases hc with rfl | rfl | rfl
          · exact Or.inr ⟨p, List.mem_cons_self _ _, hp, Or.inl rfl⟩
          · exact Or.inr ⟨p, List.mem_cons_self _ _, hp, Or.inr rfl⟩
          · exact Or.inl rfl
        · rw [if_neg hp] at hc
          simp at hc
      · rcases ih c hc with h | ⟨q, hq, hq0, hqc⟩
        · exact Or.inl h
        · exact Or.inr ⟨q, List.mem_cons_of_mem _ hq, hq0, hqc⟩
  · induction patches with
    | nil => intro p hp; simp at hp
    | cons q rest ih =>
      intro p hp hp0
      simp only [guardedCalls, List.mem_append]
      rcases List.mem_cons.mp hp with rfl | hp
      · rw [if_pos hp0]
        exact ⟨Or.inl (by simp), Or.inl (by simp)⟩
      · exact ⟨Or.inr (ih p hp hp0).1, Or.inr (ih p hp hp0).2⟩

/-- C10 at a concrete run: a wall patch, an empty patch and an inlet patch;
    the loop returns and has made six calls, none for the empty patch. -/
theorem drivers_guard_empty_patches_witness :
    (foundation.boundaryLoop sampleEnv myPythonPal [wallPatch, emptyPatch, inletPatch]
      warmWorld).err = none ∧
    ∃ done,
      callsOf (foundation.boundaryLoop sampleEnv myPythonPal [wallPatch, emptyPatch, inletPatch]
        warmWorld).world.trace = callsOf warmWorld.trace ++ done ∧
      done = [.passToPython wallPatch.U "U", .passToPython wallPatch.k "k",
        .execute calculatekCmd, .passToPython inletPatch.U "U", .passToPython inletPatch.k "k",
        .execute calculatekCmd] := by
  refine ⟨by decide, ?_⟩
  obtain ⟨done, h1, _, h3⟩ := (drivers_guard_empty_patches sampleEnv myPythonPal
    [wallPatch, emptyPatch, inletPatch] warmWorld).1
  exact ⟨done, h1, h3 (by decide)⟩

/-! ## C11: what `passToPython` changes -/

theorem toLong_small (a : Nat) (h : a < 2 ^ 63) : toLong a = (a : Int) := by
  unfold toLong
  have h1 : a % 2 ^ 64 = a := Nat.mod_eq_of_lt (by omega)
  rw [h1, if_pos h]

/-- C11, as stated, fails: `SIZE` is a plain identifier, the call
    `passToPython(sampleList, "SIZE")` succeeds in a standard scope, and
    afterwards `SIZE` is bound to the array and not to `sampleList.size()`. -/
theorem passToPython_target_SIZE_not_size :
    StdScope (myPythonPal.scope warmWorld) ∧ isPlainName "SIZE" = true ∧ sampleList.valid ∧
    (myPythonPal.passToPython sampleEnv sampleList "SIZE" warmWorld).err = none ∧
    myPythonPal.scope (myPythonPal.passToPython sampleEnv sampleList "SIZE" warmWorld).world
      "SIZE" = some (.ndarray 4096 10 3) ∧
    myPythonPal.scope (myPythonPal.passToPython sampleEnv sampleList "SIZE" warmWorld).world
      "SIZE" ≠ some (.int sampleList.size) := by
  decide

/-- C11, amended: in a scope where `np`, `C` and `exec` have their usual
    meaning, for every host list (with a 64-bit address) and every target name
    `n` that is a plain identifier, a successful `passToPython` leaves the
    binding of every name other than `SIZE`, `name`, `dim`, `myList_address`,
    `data_pointer_myList` and `n` as it was, and leaves memory as it was.
    Afterwards each helper name that is not itself the target holds the value
    of this call, whatever it held before: `SIZE` the size, `name` the text
    `n`, `dim` the number of components, `myList_address` the address as a
    `long` (the address itself below `2 ^ 63`), `data_pointer_myList` the
    pointer; and `np` and `C` are still the modules when `n` is neither. -/
theorem passToPython_frame (E : Env) (self : pythonPal) (L : HostList) (n : String)
    (w : World) (hstd : StdScope (self.scope w)) (hn : isPlainName n = true)
    (hL : L.cdata < 2 ^ 64) (hok : (self.passToPython E L n w).err = none) :
    (∀ x, x ∉ helperNames → x ≠ n →
      self.scope (self.passToPython E L n w).world x = self.scope w x) ∧
    (self.passToPython E L n w).world.py.mem = w.py.mem ∧
    (n ≠ "SIZE" →
      self.scope (self.passToPython E L n w).world "SIZE" = some (.int L.size)) ∧
    (n ≠ "name" →
      self.scope (self.passToPython E L n w).world "name" = some (.str n)) ∧
    (n ≠ "dim" →
      self.scope (self.passToPython E L n w).world "dim" = some (.int L.nComponents)) ∧
    (n ≠ "myList_address" →
      self.scope (self.passToPython E L n w).world "myList_address" =
        some (.int (toLong L.cdata))) ∧
    (L.cdata < 2 ^ 63 → toLong L.cdata = (L.cdata : Int)) ∧
    (n ≠ "data_pointer_myList" →
      self.scope (self.passToPython E L n w).world "data_pointer_myList" =
        some (.pointer L.cdata)) ∧
    (n ≠ "np" →
      self.scope (self.passToPython E L n w).world "np" = some (.module "numpy")) ∧
    (n ≠ "C" →
      self.scope (self.passToPython E L n w).world "C" = some (.module "ctypes")) := by
  rw [scope_eq] at hstd
  obtain ⟨herr, hpy⟩ := passToPython_std E self L n w hstd hn hL
  rw [herr] at hok
  have h0 : L.cdata ≠ 0 := by
    intro h
    simp [h] at hok
  rw [if_neg h0] at hpy
  have hol := ofLong_toLong L.cdata hL
  obtain ⟨hnp, hC, _⟩ := hstd
  simp only [scope_eq, hpy]
  refine ⟨?_, trivial, ?_, ?_, ?_, ?_, toLong_small L.cdata, ?_, ?_, ?_⟩
  · intro x hx hxn
    rw [scope_set_apply, if_neg hxn]
    exact pointed_frame w.py L n x hx
  · intro h
    simp [scope_set_apply, pointed, staged, Ne.symm h]
  · intro h
    simp [scope_set_apply, pointed, staged, Ne.symm h]
  · intro h
    simp [scope_set_apply, pointed, staged, Ne.symm h]
  · intro h
    simp [scope_set_apply, pointed, staged, Ne.symm h]
  · intro h
    simp [scope_set_apply, pointed, staged, Ne.symm h, hol]
  · intro h
    simp [scope_set_apply, pointed, staged, Ne.symm h, hnp]
  · intro h
    simp [scope_set_apply, pointed, staged, Ne.symm h, hC]

/-- C11, amended, at a concrete call: `sampleList` published under `U` after a
    script left `SIZE` bound to a text; `SIZE` is overwritten, a bystander
    name and the modules are untouched. -/
theorem passToPython_frame_witness :
    StdScope (myPythonPal.scope ((warmWorld.setItem "SIZE" (.str "old")).setItem "mine"
      (.float F64.two))) ∧
    isPlainName "U" = true ∧ sampleList.cdata < 2 ^ 64 ∧
    (myPythonPal.passToPython sampleEnv sampleList "U"
      ((warmWorld.setItem "SIZE" (.str "old")).setItem "mine" (.float F64.two))).err = none ∧
    myPythonPal.scope (myPythonPal.passToPython sampleEnv sampleList "U"
      ((warmWorld.setItem "SIZE" (.str "old")).setItem "mine" (.float F64.two))).world "mine" =
      some (.float F64.two) ∧
    myPythonPal.scope (myPythonPal.passToPython sampleEnv sampleList "U"
      ((warmWorld.setItem "SIZE" (.str "old")).setItem "mine" (.float F64.two))).world "SIZE" =
      some (.int 10) ∧
    myPythonPal.scope (myPythonPal.passToPython sampleEnv sampleList "U"
      ((warmWorld.setItem "SIZE" (.str "old")).setItem "mine" (.float F64.two))).world "np" =
      some (.module "numpy") :=
  ⟨by decide, by decide, by decide, by decide,
    (passToPython_frame sampleEnv myPythonPal sampleList "U"
      ((warmWorld.setItem "SIZE" (.str "old")).setItem "mine" (.float F64.two))
      (by decide) (by decide) (by decide) (by decide)).1 "mine" (by decide) (by decide),
    (passToPython_frame sampleEnv myPythonPal sampleList "U"
      ((warmWorld.setItem "SIZE" (.str "old")).setItem "mine" (.float F64.two))
      (by decide) (by decide) (by decide) (by decide)).2.2.1 (by decide),
    (passToPython_frame sampleEnv myPythonPal sampleList "U"
      ((warmWorld.setItem "SIZE" (.str "old")).setItem "mine" (.float F64.two))
      (by decide) (by decide) (by decide) (by decide)).2.2.2.2.2.2.2.2.1 (by decide)⟩

end PythonPal
